import Mathlib

/-!
Verification of the employee CRUD API of the django-ninja-crud-example
repository, as a shallow embedding in Lean 4.

The embedding models:
* the persisted data visible to the employee endpoints (the `Employee`
  rows together with their many-to-many project associations, and the set
  of existing project ids) as a `Store`;
* the request/response schemas of `company_basic/api/employee_api.py`
  (`EmployeeRequest`, `EmployeeUpdateRequest`, `EmployeeResponse`) and
  their pydantic validation (`str_strip_whitespace`, defaults, and
  `exclude_unset` partial-update semantics);
* the five handlers `create_employee`, `get_employee`, `update_employee`,
  `delete_employee` (and the read used by `get_employees` is the same
  per-row shape), including the truthiness check on `project_ids` in
  `update_employee` and the two-step create (row insert, then
  `projects.set`);
* the schemas of `company_ninja_crud/api/employee_api.py`, whose
  `projects` field is aliased to the wire name `project_ids`;
* `DummyAuthBearer.authenticate` of `company_ninja_crud/auth.py`.

Database writes are explicit state passing on `Store`; a failing write
(`projects.set` with a project id that does not exist, which violates the
through-table foreign key) is an `Except.error`, returned together with
the state as mutated so far, since the handlers run outside any
transaction.
-/

set_option autoImplicit false

/-- Equality of handler results is decidable, so that concrete runs can
be checked by `decide`. -/
instance instDecidableEqExcept {ε α : Type} [DecidableEq ε] [DecidableEq α] :
    DecidableEq (Except ε α)
  | .ok a, .ok b =>
      if h : a = b then .isTrue (by rw [h]) else .isFalse (by simp [h])
  | .error a, .error b =>
      if h : a = b then .isTrue (by rw [h]) else .isFalse (by simp [h])
  | .ok _, .error _ => .isFalse (by simp)
  | .error _, .ok _ => .isFalse (by simp)

namespace CompanyBasic

/-- One `Employee` row of `company_basic`, together with the project ids
associated to it through the `projects` many-to-many relation.
`birthdate` and `department_id` are nullable columns; a date is modelled
as an opaque integer. -/
structure Employee where
  id : Nat
  first_name : String
  last_name : String
  department_id : Option Int := none
  birthdate : Option Int := none
  project_ids : List Nat := []
  deriving Repr, DecidableEq

/-- The database state the employee endpoints touch: the employee rows,
the ids of the existing `Department` rows (targets of the `department`
foreign key), the ids of the existing `Project` rows (targets of the
many-to-many foreign key), and the id the next created row receives. -/
structure Store where
  employees : List Employee := []
  departments : List Int := []
  projects : List Nat := []
  nextId : Nat := 1
  deriving Repr, DecidableEq

/-- Modelled from the spec: `company_basic/models.py` is not in the
sources; per the spec's data model, Employee's `department_id` is
"optional in one variant, required in the other", and the variant with
the required column is `company_ninja_crud` (its `models.py` shows a
non-nullable `ForeignKey`).  So the `company_basic` Employee has a
nullable `department` foreign key: a null reference is fine, and a
non-null one must name an existing `Department` row, otherwise the
write raises `IntegrityError`. -/
def Store.departmentOk (s : Store) (dep : Option Int) : Prop :=
  ∀ d, dep = some d → d ∈ s.departments

instance (s : Store) (dep : Option Int) : Decidable (s.departmentOk dep) := by
  unfold Store.departmentOk
  infer_instance

/-- Invariant a real database maintains: every stored row's department
reference names an existing `Department` row (the foreign key is checked
on every write). -/
def Store.departmentsOk (s : Store) : Prop :=
  ∀ e ∈ s.employees, s.departmentOk e.department_id

instance (s : Store) : Decidable s.departmentsOk := by
  unfold Store.departmentsOk
  infer_instance

/-- The first row of a list carrying the given primary key, if any. -/
def findRow : List Employee → Nat → Option Employee
  | [], _ => none
  | e :: rest, id => if e.id = id then some e else findRow rest id

/-- Model of `get_object_or_404(Employee.objects..., id=id)`: the row with the
given primary key, if any. -/
def Store.findEmployee (s : Store) (id : Nat) : Option Employee :=
  findRow s.employees id

/-- Holds when the next id really is fresh, as a database sequence
guarantees. -/
def Store.fresh (s : Store) : Prop :=
  ∀ e ∈ s.employees, e.id ≠ s.nextId

instance (s : Store) : Decidable s.fresh := by
  unfold Store.fresh; infer_instance

/-- Model of `employee.projects.set(pids)`: replaces the association set of the
row `eid` with the given ids (Django deduplicates them into a set).  The
through-table insert violates a foreign key when some id has no `Project`
row, so the write fails in that case, leaving the store unchanged. -/
def Store.projectsSet (s : Store) (eid : Nat) (pids : List Nat) : Option Store :=
  if ∀ p ∈ pids, p ∈ s.projects then
    some { s with
      employees := s.employees.map
        (fun e => if e.id = eid then { e with project_ids := pids.dedup } else e) }
  else
    none

/-- Model of `instance.save()` after mutating a fetched row: writes the
row back over every stored row with the same id.  The write raises
`IntegrityError` (returns `none`, persisting nothing) when the row's
department reference names no `Department` row. -/
def Store.saveEmployee (s : Store) (e : Employee) : Option Store :=
  if s.departmentOk e.department_id then
    some { s with
      employees := s.employees.map (fun x => if x.id = e.id then e else x) }
  else
    none

/-- Errors the handlers surface: `get_object_or_404` raising `Http404`,
and an integrity error from a failed foreign-key insert. -/
inductive ApiError where
  | notFound
  | integrityError
  deriving Repr, DecidableEq

/-- The `EmployeeResponse` schema: scalar columns plus the resolved
`project_ids` field (`[p.id for p in obj.projects.all()]`). -/
structure EmployeeResponse where
  id : Nat
  first_name : String
  last_name : String
  department_id : Option Int
  project_ids : List Nat
  birthdate : Option Int
  deriving Repr, DecidableEq

/-- Conversion of a row to the response shape (`from_orm`),
with `resolve_project_ids` listing the associated project ids. -/
def EmployeeResponse.ofEmployee (e : Employee) : EmployeeResponse :=
  { id := e.id
    first_name := e.first_name
    last_name := e.last_name
    department_id := e.department_id
    project_ids := e.project_ids
    birthdate := e.birthdate }

/-- The validated `EmployeeRequest` create schema: `first_name` and
`last_name` required, `department_id` and `birthdate` defaulting to null,
`project_ids` defaulting to the empty list. -/
structure EmployeeRequest where
  first_name : String
  last_name : String
  department_id : Option Int := none
  project_ids : List Nat := []
  birthdate : Option Int := none
  deriving Repr, DecidableEq

/-- The validated `EmployeeUpdateRequest` partial-update schema, as seen
through `model_dump(exclude_unset=True)`: each field is either absent
(`none`, the field was not in the payload) or present with a value. -/
structure EmployeeUpdateRequest where
  first_name : Option String := none
  last_name : Option String := none
  department_id : Option Int := none
  project_ids : Option (List Nat) := none
  birthdate : Option Int := none
  deriving Repr, DecidableEq

/-- The row `Employee.objects.create(...)` inserts for a create request:
the scalar fields of the payload, the fresh id, and no associations yet. -/
def newEmployee (s : Store) (data : EmployeeRequest) : Employee :=
  { id := s.nextId
    first_name := data.first_name
    last_name := data.last_name
    department_id := data.department_id
    birthdate := data.birthdate
    project_ids := [] }

/-- Handler `create_employee`: `Employee.objects.create(...)` with the
scalar fields, then `employee.projects.set(data.project_ids)`
(unconditionally).  The insert itself raises (persisting nothing) when
the requested department does not exist; if the insert succeeds and the
association write fails, the created row remains. -/
def create_employee (s : Store) (data : EmployeeRequest) :
    Store × Except ApiError EmployeeResponse :=
  if s.departmentOk data.department_id then
    let e : Employee := newEmployee s data
    let s1 : Store := { s with employees := s.employees ++ [e], nextId := s.nextId + 1 }
    match s1.projectsSet e.id data.project_ids with
    | some s2 =>
        (s2, .ok (.ofEmployee { e with project_ids := data.project_ids.dedup }))
    | none => (s1, .error .integrityError)
  else
    (s, .error .integrityError)

/-- Handler `get_employee`: fetch by primary key, 404 when absent. -/
def get_employee (s : Store) (id : Nat) : Except ApiError EmployeeResponse :=
  match s.findEmployee id with
  | some e => .ok (.ofEmployee e)
  | none => .error .notFound

/-- The scalar-field merge of `update_employee`: each column is
overwritten with `provided_data.get(field, old value)`. -/
def mergeEmployee (inst : Employee) (data : EmployeeUpdateRequest) : Employee :=
  { inst with
    first_name := data.first_name.getD inst.first_name
    last_name := data.last_name.getD inst.last_name
    department_id := (data.department_id.map some).getD inst.department_id
    birthdate := (data.birthdate.map some).getD inst.birthdate }

/-- Handler `update_employee`: fetch by primary key (404 when absent),
overwrite each scalar field with `provided_data.get(field, old value)`,
save — which itself raises, persisting nothing, when the merged
department reference names no row — and then, only when
`provided_data.get("project_ids", None)` is truthy, i.e. present and
non-empty, replace the project associations. -/
def update_employee (s : Store) (id : Nat) (data : EmployeeUpdateRequest) :
    Store × Except ApiError EmployeeResponse :=
  match s.findEmployee id with
  | none => (s, .error .notFound)
  | some inst =>
      let inst1 : Employee := mergeEmployee inst data
      match s.saveEmployee inst1 with
      | none => (s, .error .integrityError)
      | some s1 =>
          match data.project_ids with
          | some (p :: ps) =>
              match s1.projectsSet inst1.id (p :: ps) with
              | some s2 =>
                  (s2, .ok (.ofEmployee { inst1 with project_ids := (p :: ps).dedup }))
              | none => (s1, .error .integrityError)
          | _ => (s1, .ok (.ofEmployee inst1))

/-- Handler `delete_employee`: fetch by primary key (404 when absent), then
delete the row (the through-table rows cascade with it). -/
def delete_employee (s : Store) (id : Nat) : Store × Except ApiError Unit :=
  match s.findEmployee id with
  | none => (s, .error .notFound)
  | some _ =>
      ({ s with employees := s.employees.filter (fun e => ¬ e.id == id) }, .ok ())

end CompanyBasic

/-- A raw employee JSON payload as the endpoints receive it, before
pydantic validation: each of the five keys is present with a value or
absent.  (Explicit `null` for a non-`Optional`-annotated field is a
validation error in pydantic and is not representable here.) -/
structure RawPayload where
  first_name : Option String := none
  last_name : Option String := none
  department_id : Option Int := none
  project_ids : Option (List Nat) := none
  birthdate : Option Int := none
  deriving Repr, DecidableEq

/-- A pydantic validation error (HTTP 422), naming the offending field. -/
inductive ValidationError where
  | missingField (name : String)
  deriving Repr, DecidableEq

namespace CompanyBasic

/-- Validation of the `company_basic` `EmployeeRequest` schema:
`first_name` and `last_name` are required, `project_ids` defaults to the
empty list, and `str_strip_whitespace` trims string fields. -/
def validateEmployeeRequest (p : RawPayload) : Except ValidationError EmployeeRequest :=
  match p.first_name, p.last_name with
  | none, _ => .error (.missingField "first_name")
  | _, none => .error (.missingField "last_name")
  | some fn, some ln =>
      .ok { first_name := fn.trim
            last_name := ln.trim
            department_id := p.department_id
            project_ids := p.project_ids.getD []
            birthdate := p.birthdate }

/-- Validation of the `company_basic` `EmployeeUpdateRequest` schema:
every field optional, string fields trimmed; an absent key stays absent
(what `model_dump(exclude_unset=True)` later reports). -/
def validateEmployeeUpdateRequest (p : RawPayload) : EmployeeUpdateRequest :=
  { first_name := p.first_name.map String.trim
    last_name := p.last_name.map String.trim
    department_id := p.department_id
    project_ids := p.project_ids
    birthdate := p.birthdate }

end CompanyBasic

namespace CompanyNinjaCrud

/-- The `company_ninja_crud` `EmployeeRequest` schema after validation.
Its relation field is named `projects` internally and is required
(`Field(..., alias="project_ids")`), populated from the wire key
`project_ids`. -/
structure EmployeeRequest where
  first_name : String
  last_name : String
  department_id : Option Int := none
  projects : List Nat
  birthdate : Option Int := none
  deriving Repr, DecidableEq

/-- The `company_ninja_crud` `EmployeeUpdateRequest` schema after
validation: every field optional, `projects` aliased to the wire key
`project_ids` (`Field(None, alias="project_ids")`). -/
structure EmployeeUpdateRequest where
  first_name : Option String := none
  last_name : Option String := none
  department_id : Option Int := none
  projects : Option (List Nat) := none
  birthdate : Option Int := none
  deriving Repr, DecidableEq

/-- Validation of the `company_ninja_crud` `EmployeeRequest` schema:
`first_name`, `last_name` and the aliased `project_ids` key are required
(`Field(...)` has no default), strings are trimmed, and the wire key
`project_ids` populates the internal `projects` field. -/
def validateEmployeeRequest (p : RawPayload) : Except ValidationError EmployeeRequest :=
  match p.first_name, p.last_name, p.project_ids with
  | none, _, _ => .error (.missingField "first_name")
  | _, none, _ => .error (.missingField "last_name")
  | _, _, none => .error (.missingField "project_ids")
  | some fn, some ln, some pr =>
      .ok { first_name := fn.trim
            last_name := ln.trim
            department_id := p.department_id
            projects := pr
            birthdate := p.birthdate }

/-- Validation of the `company_ninja_crud` `EmployeeUpdateRequest`
schema: all optional, strings trimmed, wire key `project_ids` populating
the internal `projects` field. -/
def validateEmployeeUpdateRequest (p : RawPayload) : EmployeeUpdateRequest :=
  { first_name := p.first_name.map String.trim
    last_name := p.last_name.map String.trim
    department_id := p.department_id
    projects := p.project_ids
    birthdate := p.birthdate }

/-- What a request carries after `request.user` may have been assigned:
a concrete user row or the `AnonymousUser` placeholder. -/
inductive RequestUser where
  | user (id : Nat)
  | anonymous
  deriving Repr, DecidableEq

/-- The observable outcome of `DummyAuthBearer.authenticate`: `result`
is the return value (`some u` is truthy, so Django Ninja sets
`request.auth` and lets the request through; `none` is falsy, so the
request is rejected as unauthenticated), and `requestUser` is what was
assigned to `request.user`, when that line was reached. -/
structure AuthOutcome where
  result : Option Nat
  requestUser : Option RequestUser
  deriving Repr, DecidableEq

/-- Python's `token.split(":")` on the character list of the token:
splits at every colon, keeping empty parts, so the empty string yields
one (empty) part and a string with `n` colons yields `n + 1` parts. -/
def splitColon : List Char → List (List Char)
  | [] => [[]]
  | c :: rest =>
      if c = ':' then
        [] :: splitColon rest
      else
        match splitColon rest with
        | [] => [[c]]
        | part :: parts => (c :: part) :: parts

/-- Model of `DummyAuthBearer.authenticate` of `company_ninja_crud/auth.py`.
The database query `get_user_model().objects.filter(id=user_id).first()`
is the abstract `query`, from the raw `user_id` string to either the
matching user id (if any) or a raised exception: the ORM coerces the
string primary key with `int(...)` and raises `ValueError` when the
string is not numeric.  A raised query propagates out of `authenticate`
(`Except.error`), so `request.user` is never assigned and no
authentication decision is made; a returned query yields the function's
outcome. -/
def DummyAuthBearer.authenticate (query : String → Except Unit (Option Nat))
    (token : String) : Except Unit AuthOutcome :=
  match splitColon token.data with
  | [token_value, user_id] =>
      if token_value = "supersecret".data then
        match query ⟨user_id⟩ with
        | .error e => .error e
        | .ok (some u) => .ok ⟨some u, some (.user u)⟩
        | .ok none => .ok ⟨none, some .anonymous⟩
      else .ok ⟨none, none⟩
  | _ => .ok ⟨none, none⟩

end CompanyNinjaCrud

section Fixtures

open CompanyBasic

/-- A concrete employee row, mirroring the seeded demo data. -/
def demoEmp : Employee :=
  { id := 1, first_name := "Bob", last_name := "Smith",
    department_id := some 1, birthdate := some 0, project_ids := [10] }

/-- A concrete store with one employee, one department and two projects. -/
def demoStore : Store :=
  { employees := [demoEmp], departments := [1], projects := [10, 11], nextId := 2 }

/-- A concrete user query for the auth embedding: only user 1 exists;
the decimal id strings "1" and "2" are queried fine (finding a user and
nothing, respectively), while any other string — e.g. the non-numeric
"abc" — makes the ORM raise `ValueError` while coercing the primary
key. -/
def demoUserQuery : String → Except Unit (Option Nat) :=
  fun s =>
    if s == "1" then .ok (some 1)
    else if s == "2" then .ok none
    else .error ()

/-- A PATCH payload carrying only `last_name`. -/
def demoUpdLastName : EmployeeUpdateRequest := { last_name := some "Jones" }

/-- A PATCH payload carrying `project_ids` as an explicit empty list. -/
def demoUpdEmptyPids : EmployeeUpdateRequest := { project_ids := some [] }

/-- A PATCH payload with a new last name and a project id that has no
`Project` row in `demoStore`. -/
def demoUpdBadProject : EmployeeUpdateRequest :=
  { last_name := some "X", project_ids := some [99] }

/-- A create payload whose project ids exist in `demoStore`. -/
def demoCreate : EmployeeRequest :=
  { first_name := "A", last_name := "B", project_ids := [11, 10] }

/-- A raw JSON payload with padded names and one project id. -/
def demoPayload : RawPayload :=
  { first_name := some "  Ann ", last_name := some " Lee ", project_ids := some [11] }

/-- A raw JSON payload that omits the `project_ids` key. -/
def demoPayloadNoPids : RawPayload :=
  { first_name := some "Ann", last_name := some "Lee" }

example :
    (update_employee demoStore 1 { last_name := some "Jones" }).1.findEmployee 1 =
      some { demoEmp with last_name := "Jones" } := by decide

example :
    (update_employee demoStore 1 { project_ids := some [] }).1 = demoStore := by decide

example :
    (update_employee demoStore 1 { project_ids := some [11] }).1.findEmployee 1 =
      some { demoEmp with project_ids := [11] } := by decide

example :
    (update_employee demoStore 1 { last_name := some "X", project_ids := some [99] }).2 =
      .error .integrityError := by decide

example :
    ((update_employee demoStore 1 { last_name := some "X", project_ids := some [99] }).1.findEmployee 1).map
      Employee.last_name = some "X" := by decide

example :
    (create_employee demoStore { first_name := "A", last_name := "B", project_ids := [11, 10] }).2 =
      .ok { id := 2, first_name := "A", last_name := "B", department_id := none,
            project_ids := [11, 10], birthdate := none } := by decide

example :
    update_employee demoStore 1 { department_id := some 99 } =
      (demoStore, .error .integrityError) := by decide

example :
    create_employee demoStore
        { first_name := "A", last_name := "B", department_id := some 99 } =
      (demoStore, .error .integrityError) := by decide

end Fixtures

section Helpers

open CompanyBasic

/-- Replacing, in a list of rows, every row with the given id by a fixed
row `r` carrying that id leaves `r` findable under the id, provided some
row with the id was findable before. -/
theorem find_after_replace (l : List Employee) (id : Nat) (r : Employee)
    (hr : r.id = id) (e : Employee)
    (he : findRow l id = some e) :
    findRow (l.map (fun x => if x.id = id then r else x)) id = some r := by
  induction l with
  | nil => simp [findRow] at he
  | cons h t ih =>
      by_cases hp : h.id = id
      · simp [findRow, hp, hr]
      · simp only [findRow, if_neg hp] at he
        simp only [List.map_cons, findRow, if_neg hp]
        exact ih he

/-- Mapping an id-preserving edit `f` over the rows with the given id
turns the findable row `e` into `f e`. -/
theorem find_after_edit (l : List Employee) (id : Nat) (f : Employee → Employee)
    (hf : ∀ x, (f x).id = x.id) (e : Employee)
    (he : findRow l id = some e) :
    findRow (l.map (fun x => if x.id = id then f x else x)) id = some (f e) := by
  induction l with
  | nil => simp [findRow] at he
  | cons h t ih =>
      by_cases hp : h.id = id
      · simp only [findRow, if_pos hp, Option.some.injEq] at he
        subst he
        simp [findRow, hp, hf]
      · simp only [findRow, if_neg hp] at he
        simp only [List.map_cons, findRow, if_neg hp]
        exact ih he

/-- A found row's id is the id it was looked up by. -/
theorem findRow_id (l : List Employee) (id : Nat) (e : Employee)
    (he : findRow l id = some e) : e.id = id := by
  induction l with
  | nil => simp [findRow] at he
  | cons h t ih =>
      by_cases hp : h.id = id
      · simp only [findRow, if_pos hp, Option.some.injEq] at he
        rw [← he]
        exact hp
      · simp only [findRow, if_neg hp] at he
        exact ih he

/-- A found row belongs to the list it was found in. -/
theorem findRow_mem (l : List Employee) (id : Nat) (e : Employee)
    (he : findRow l id = some e) : e ∈ l := by
  induction l with
  | nil => simp [findRow] at he
  | cons h t ih =>
      by_cases hp : h.id = id
      · simp only [findRow, if_pos hp, Option.some.injEq] at he
        subst he
        exact List.mem_cons_self _ _
      · simp only [findRow, if_neg hp] at he
        exact List.mem_cons_of_mem _ (ih he)

/-- A found employee's id is the id it was looked up by. -/
theorem findEmployee_id (s : Store) (id : Nat) (e : Employee)
    (he : s.findEmployee id = some e) : e.id = id :=
  findRow_id s.employees id e he

/-- A found employee is one of the stored rows. -/
theorem findEmployee_mem (s : Store) (id : Nat) (e : Employee)
    (he : s.findEmployee id = some e) : e ∈ s.employees :=
  findRow_mem s.employees id e he

/-- Unfolding of `instance.save()` when the row's department reference
is satisfiable. -/
theorem saveEmployee_eq_some (s : Store) (r : Employee)
    (hdep : s.departmentOk r.department_id) :
    s.saveEmployee r =
      some { s with employees := s.employees.map (fun x => if x.id = r.id then r else x) } := by
  unfold Store.saveEmployee
  rw [if_pos hdep]

/-- Unfolding of `instance.save()` when the row's department reference
names no row: the write raises and persists nothing. -/
theorem saveEmployee_eq_none (s : Store) (r : Employee)
    (hdep : ¬ s.departmentOk r.department_id) :
    s.saveEmployee r = none := by
  unfold Store.saveEmployee
  rw [if_neg hdep]

/-- Saving a row `r` carrying the looked-up id makes `r` the row found
under that id, whenever the save goes through. -/
theorem findEmployee_save (s : Store) (id : Nat) (e r : Employee)
    (he : s.findEmployee id = some e) (hr : r.id = id) (s1 : Store)
    (hs : s.saveEmployee r = some s1) :
    s1.findEmployee id = some r := by
  unfold Store.saveEmployee at hs
  split at hs
  · injection hs with hs
    subst hs
    unfold Store.findEmployee
    simp only [hr]
    exact find_after_replace s.employees id r hr e he
  · exact absurd hs (by simp)

/-- A successful save does not change the set of projects. -/
theorem saveEmployee_projects (s : Store) (r : Employee) (s1 : Store)
    (hs : s.saveEmployee r = some s1) : s1.projects = s.projects := by
  unfold Store.saveEmployee at hs
  split at hs
  · injection hs with hs
    subst hs
    rfl
  · exact absurd hs (by simp)

/-- The write `projects.set` succeeds exactly when every given project id exists. -/
theorem projectsSet_isSome_iff (s : Store) (eid : Nat) (pids : List Nat) :
    (s.projectsSet eid pids).isSome ↔ ∀ p ∈ pids, p ∈ s.projects := by
  unfold Store.projectsSet
  split <;> simp_all

/-- A successful `projects.set` replaces the found row's association
list with the deduplicated given ids and touches nothing else of it. -/
theorem findEmployee_projectsSet (s : Store) (id : Nat) (e : Employee)
    (pids : List Nat) (s2 : Store) (hset : s.projectsSet id pids = some s2)
    (he : s.findEmployee id = some e) :
    s2.findEmployee id = some { e with project_ids := pids.dedup } := by
  unfold Store.projectsSet at hset
  split at hset
  · injection hset with hset
    subst hset
    exact find_after_edit s.employees id
      (fun x => { x with project_ids := pids.dedup }) (fun x => rfl) e he
  · exact absurd hset (by simp)

/-- The write `projects.set` fails when one of the given ids has no project row. -/
theorem projectsSet_eq_none (s : Store) (eid : Nat) (pids : List Nat)
    (p : Nat) (hp : p ∈ pids) (hnp : p ∉ s.projects) :
    s.projectsSet eid pids = none := by
  have hcond : ¬ (∀ q ∈ pids, q ∈ s.projects) := fun hall => hnp (hall p hp)
  unfold Store.projectsSet
  rw [if_neg hcond]

/-- Rows whose id misses the looked-up id do not affect `findRow`. -/
theorem findRow_append (l1 l2 : List Employee) (id : Nat)
    (h1 : ∀ x ∈ l1, x.id ≠ id) :
    findRow (l1 ++ l2) id = findRow l2 id := by
  induction l1 with
  | nil => simp
  | cons h t ih =>
      have hh : h.id ≠ id := h1 h (List.mem_cons_self h t)
      simp only [List.cons_append, findRow, if_neg hh]
      exact ih (fun x hx => h1 x (List.mem_cons_of_mem h hx))

/-- In a fresh store, looking up the next id skips every pre-existing
row, so only appended rows can be found under it. -/
theorem findEmployee_append_fresh (s : Store) (hfresh : s.fresh)
    (l2 : List Employee) (rest : Store)
    (hrest : rest.employees = s.employees ++ l2) :
    rest.findEmployee s.nextId = findRow l2 s.nextId := by
  unfold Store.findEmployee
  rw [hrest]
  exact findRow_append _ _ _ (fun x hx => hfresh x hx)

/-- The scalar merge keeps the primary key. -/
theorem mergeEmployee_id (e : Employee) (d : EmployeeUpdateRequest) :
    (mergeEmployee e d).id = e.id := rfl

/-- The merged row's department reference is satisfiable when both the
stored row's and the payload's are. -/
theorem mergeEmployee_departmentOk (s : Store) (e : Employee)
    (d : EmployeeUpdateRequest) (he : s.departmentOk e.department_id)
    (hd : s.departmentOk d.department_id) :
    s.departmentOk (mergeEmployee e d).department_id := by
  rcases hdd : d.department_id with _ | dd
  · intro x hx
    exact he x (by simpa [mergeEmployee, hdd] using hx)
  · intro x hx
    simp only [mergeEmployee] at hx
    rw [hdd] at hx
    simp at hx
    subst hx
    exact hd dd hdd

/-- Unfolding of `update_employee` on a missing id. -/
theorem update_employee_notFound (s : Store) (id : Nat) (d : EmployeeUpdateRequest)
    (he : s.findEmployee id = none) :
    update_employee s id d = (s, .error .notFound) := by
  simp [update_employee, he]

/-- Unfolding of `get_employee` on a missing id. -/
theorem get_employee_notFound (s : Store) (id : Nat)
    (he : s.findEmployee id = none) :
    get_employee s id = .error .notFound := by
  simp [get_employee, he]

/-- Unfolding of `get_employee` on a present id. -/
theorem get_employee_found (s : Store) (id : Nat) (e : Employee)
    (he : s.findEmployee id = some e) :
    get_employee s id = .ok (.ofEmployee e) := by
  simp [get_employee, he]

/-- Unfolding of `delete_employee` on a missing id. -/
theorem delete_employee_notFound (s : Store) (id : Nat)
    (he : s.findEmployee id = none) :
    delete_employee s id = (s, .error .notFound) := by
  simp [delete_employee, he]

/-- Unfolding of `update_employee` when the row is found but the merged
department reference names no row: the scalar save itself raises, and
nothing at all is persisted. -/
theorem update_employee_save_fail (s : Store) (id : Nat)
    (d : EmployeeUpdateRequest) (e : Employee)
    (he : s.findEmployee id = some e)
    (hdep : ¬ s.departmentOk (mergeEmployee e d).department_id) :
    update_employee s id d = (s, .error .integrityError) := by
  simp [update_employee, he, saveEmployee_eq_none s (mergeEmployee e d) hdep]

/-- Unfolding of `update_employee` when the row is found, the save goes
through, and the payload has no `project_ids` key. -/
theorem update_employee_found_no_pids (s : Store) (id : Nat)
    (d : EmployeeUpdateRequest) (e : Employee) (s1 : Store)
    (he : s.findEmployee id = some e) (hd : d.project_ids = none)
    (hs : s.saveEmployee (mergeEmployee e d) = some s1) :
    update_employee s id d = (s1, .ok (.ofEmployee (mergeEmployee e d))) := by
  simp [update_employee, he, hs, hd]

/-- Unfolding of `update_employee` when the row is found, the save goes
through, and the payload carries `project_ids` as the (falsy) empty
list. -/
theorem update_employee_found_empty_pids (s : Store) (id : Nat)
    (d : EmployeeUpdateRequest) (e : Employee) (s1 : Store)
    (he : s.findEmployee id = some e) (hd : d.project_ids = some [])
    (hs : s.saveEmployee (mergeEmployee e d) = some s1) :
    update_employee s id d = (s1, .ok (.ofEmployee (mergeEmployee e d))) := by
  simp [update_employee, he, hs, hd]

/-- Unfolding of `update_employee` when the row is found, the save goes
through, the payload has a non-empty `project_ids`, and the association
write succeeds. -/
theorem update_employee_found_set_ok (s : Store) (id : Nat)
    (d : EmployeeUpdateRequest) (e : Employee) (p : Nat) (ps : List Nat)
    (s1 s2 : Store)
    (he : s.findEmployee id = some e) (hd : d.project_ids = some (p :: ps))
    (hs : s.saveEmployee (mergeEmployee e d) = some s1)
    (hset : s1.projectsSet (mergeEmployee e d).id (p :: ps) = some s2) :
    update_employee s id d =
      (s2, .ok (.ofEmployee { mergeEmployee e d with project_ids := (p :: ps).dedup })) := by
  simp [update_employee, he, hd, hs, hset]

/-- Unfolding of `update_employee` when the row is found, the save goes
through, the payload has a non-empty `project_ids`, and the association
write fails: the scalar write stays applied. -/
theorem update_employee_found_set_fail (s : Store) (id : Nat)
    (d : EmployeeUpdateRequest) (e : Employee) (p : Nat) (ps : List Nat)
    (s1 : Store)
    (he : s.findEmployee id = some e) (hd : d.project_ids = some (p :: ps))
    (hs : s.saveEmployee (mergeEmployee e d) = some s1)
    (hset : s1.projectsSet (mergeEmployee e d).id (p :: ps) = none) :
    update_employee s id d = (s1, .error .integrityError) := by
  simp [update_employee, he, hd, hs, hset]

/-- Unfolding of `create_employee` when the requested department does
not exist: the insert itself raises, and nothing is persisted. -/
theorem create_employee_dept_fail (s : Store) (data : EmployeeRequest)
    (hdep : ¬ s.departmentOk data.department_id) :
    create_employee s data = (s, .error .integrityError) := by
  simp [create_employee, hdep]

/-- Result of `create_employee` when the department reference is
satisfiable and every requested project id exists: the response carries
the scalar fields and the deduplicated ids, and (for a fresh store) the
created row is stored in the same shape. -/
theorem create_employee_ok (s : Store) (data : EmployeeRequest)
    (hdep : s.departmentOk data.department_id)
    (hex : ∀ p ∈ data.project_ids, p ∈ s.projects) :
    (create_employee s data).2 =
        .ok (.ofEmployee { newEmployee s data with project_ids := data.project_ids.dedup }) ∧
    (s.fresh → (create_employee s data).1.findEmployee s.nextId =
        some { newEmployee s data with project_ids := data.project_ids.dedup }) := by
  have hsome : ((⟨s.employees ++ [newEmployee s data], s.departments, s.projects,
      s.nextId + 1⟩ : Store).projectsSet (newEmployee s data).id data.project_ids).isSome := by
    rw [projectsSet_isSome_iff]
    exact hex
  rcases h : (⟨s.employees ++ [newEmployee s data], s.departments, s.projects,
      s.nextId + 1⟩ : Store).projectsSet (newEmployee s data).id data.project_ids with _ | s2
  · rw [h] at hsome
    simp at hsome
  · constructor
    · simp [create_employee, hdep, h]
    · intro hfresh
      have he1 : (⟨s.employees ++ [newEmployee s data], s.departments, s.projects,
          s.nextId + 1⟩ : Store).findEmployee s.nextId = some (newEmployee s data) := by
        rw [findEmployee_append_fresh s hfresh [newEmployee s data] _ rfl]
        simp [findRow, newEmployee]
      have hf := findEmployee_projectsSet _ s.nextId (newEmployee s data)
        data.project_ids s2 h he1
      simp only [create_employee, if_pos hdep, h]
      exact hf

/-- Result of `create_employee` when the department exists but a
requested project id does not: the association write fails, but the
created row remains, with no associations. -/
theorem create_employee_fail (s : Store) (data : EmployeeRequest)
    (hdep : s.departmentOk data.department_id) (p : Nat)
    (hp : p ∈ data.project_ids) (hnp : p ∉ s.projects) :
    create_employee s data =
      ({ s with employees := s.employees ++ [newEmployee s data], nextId := s.nextId + 1 },
        .error .integrityError) := by
  have hnone := projectsSet_eq_none
    (⟨s.employees ++ [newEmployee s data], s.departments, s.projects, s.nextId + 1⟩ : Store)
    (newEmployee s data).id data.project_ids p hp hnp
  simp [create_employee, hdep, hnone]

/-- Deduplication does not change a list of ids viewed as a set. -/
theorem dedup_toFinset (l : List Nat) : l.dedup.toFinset = l.toFinset := by
  ext a
  simp [List.mem_toFinset, List.mem_dedup]

/-- Full characterization of the row stored under `id` after
`update_employee` on a found row, across every branch of the handler:
when the merged department reference is unsatisfiable the save raises
and the row is untouched; otherwise the scalar fields are merged and the
associations follow the truthiness check and the outcome of
`projects.set`. -/
theorem update_employee_row_spec (s : Store) (id : Nat)
    (d : EmployeeUpdateRequest) (e : Employee)
    (he : s.findEmployee id = some e) :
    ∃ e1, (update_employee s id d).1.findEmployee id = some e1 ∧
      (¬ s.departmentOk (mergeEmployee e d).department_id → e1 = e) ∧
      (s.departmentOk (mergeEmployee e d).department_id →
        e1.first_name = d.first_name.getD e.first_name ∧
        e1.last_name = d.last_name.getD e.last_name ∧
        e1.department_id = (d.department_id.map some).getD e.department_id ∧
        e1.birthdate = (d.birthdate.map some).getD e.birthdate ∧
        ((d.project_ids = none ∨ d.project_ids = some []) →
          e1.project_ids = e.project_ids) ∧
        (∀ l, d.project_ids = some l → (∃ q ∈ l, q ∉ s.projects) →
          e1.project_ids = e.project_ids) ∧
        (∀ l, d.project_ids = some l → l ≠ [] → (∀ q ∈ l, q ∈ s.projects) →
          e1.project_ids = l.dedup)) := by
  have hid : e.id = id := findEmployee_id s id e he
  have hmid : (mergeEmployee e d).id = id := by rw [mergeEmployee_id, hid]
  by_cases hdep : s.departmentOk (mergeEmployee e d).department_id
  · rcases hs0 : s.saveEmployee (mergeEmployee e d) with _ | s1
    · rw [saveEmployee_eq_some s (mergeEmployee e d) hdep] at hs0
      cases hs0
    · have hsave : s1.findEmployee id = some (mergeEmployee e d) :=
        findEmployee_save s id e (mergeEmployee e d) he hmid s1 hs0
      have hproj : s1.projects = s.projects := saveEmployee_projects s _ s1 hs0
      rcases hd : d.project_ids with _ | pids
      · rw [update_employee_found_no_pids s id d e s1 he hd hs0]
        refine ⟨mergeEmployee e d, hsave, fun h => absurd hdep h,
          fun _ => ⟨rfl, rfl, rfl, rfl, fun _ => rfl, ?_, ?_⟩⟩
        · intro l hl
          cases hl
        · intro l hl
          cases hl
      · rcases pids with _ | ⟨p, ps⟩
        · rw [update_employee_found_empty_pids s id d e s1 he hd hs0]
          refine ⟨mergeEmployee e d, hsave, fun h => absurd hdep h,
            fun _ => ⟨rfl, rfl, rfl, rfl, fun _ => rfl, ?_, ?_⟩⟩
          · intro l hl hbad
            injection hl with hl
            subst hl
            simp at hbad
          · intro l hl hne
            injection hl with hl
            exact absurd hl.symm hne
        · by_cases hex : ∀ q ∈ p :: ps, q ∈ s.projects
          · have hsome : (s1.projectsSet (mergeEmployee e d).id (p :: ps)).isSome := by
              rw [projectsSet_isSome_iff, hproj]
              exact hex
            rcases hset : s1.projectsSet (mergeEmployee e d).id (p :: ps) with _ | s2
            · rw [hset] at hsome
              simp at hsome
            · rw [update_employee_found_set_ok s id d e p ps s1 s2 he hd hs0 hset]
              rw [hmid] at hset
              have hfind := findEmployee_projectsSet s1 id (mergeEmployee e d)
                (p :: ps) s2 hset hsave
              refine ⟨_, hfind, fun h => absurd hdep h,
                fun _ => ⟨rfl, rfl, rfl, rfl, ?_, ?_, ?_⟩⟩
              · intro hor
                rcases hor with h1 | h1 <;> cases h1
              · intro l hl hbad
                injection hl with hl
                subst hl
                rcases hbad with ⟨q, hq, hnq⟩
                exact absurd (hex q hq) hnq
              · intro l hl _ _
                injection hl with hl
                rw [← hl]
          · push_neg at hex
            rcases hex with ⟨q, hq, hnq⟩
            have hnq1 : q ∉ s1.projects := by
              rw [hproj]
              exact hnq
            have hset : s1.projectsSet (mergeEmployee e d).id (p :: ps) = none :=
              projectsSet_eq_none s1 _ _ q hq hnq1
            rw [update_employee_found_set_fail s id d e p ps s1 he hd hs0 hset]
            refine ⟨mergeEmployee e d, hsave, fun h => absurd hdep h,
              fun _ => ⟨rfl, rfl, rfl, rfl, fun _ => rfl, ?_, ?_⟩⟩
            · intro l hl hbad
              rfl
            · intro l hl hne hall
              injection hl with hl
              subst hl
              exact absurd (hall q hq) hnq
  · rw [update_employee_save_fail s id d e he hdep]
    exact ⟨e, he, fun _ => rfl, fun h => absurd h hdep⟩

/-- Whatever the outcome of the association write, a fresh create whose
department reference is satisfiable stores a row under the new id whose
scalar fields are the payload's. -/
theorem create_employee_row (s : Store) (data : EmployeeRequest)
    (hdep : s.departmentOk data.department_id) (hfresh : s.fresh) :
    ∃ e1, (create_employee s data).1.findEmployee s.nextId = some e1 ∧
      e1.first_name = data.first_name ∧
      e1.last_name = data.last_name ∧
      e1.department_id = data.department_id ∧
      e1.birthdate = data.birthdate := by
  have he1 : (⟨s.employees ++ [newEmployee s data], s.departments, s.projects,
      s.nextId + 1⟩ : Store).findEmployee s.nextId = some (newEmployee s data) := by
    rw [findEmployee_append_fresh s hfresh [newEmployee s data] _ rfl]
    simp [findRow, newEmployee]
  rcases h : (⟨s.employees ++ [newEmployee s data], s.departments, s.projects,
      s.nextId + 1⟩ : Store).projectsSet (newEmployee s data).id data.project_ids with _ | s2
  · refine ⟨newEmployee s data, ?_, rfl, rfl, rfl, rfl⟩
    simp only [create_employee, if_pos hdep, h]
    exact he1
  · have hf := findEmployee_projectsSet _ s.nextId (newEmployee s data)
      data.project_ids s2 h he1
    refine ⟨{ newEmployee s data with project_ids := data.project_ids.dedup },
      ?_, rfl, rfl, rfl, rfl⟩
    simp only [create_employee, if_pos hdep, h]
    exact hf

end Helpers

section AuthScratch

open CompanyNinjaCrud

example : splitColon "supersecret:2".data = ["supersecret".data, "2".data] := by decide

example : DummyAuthBearer.authenticate demoUserQuery "supersecret:2" =
    .ok ⟨none, some .anonymous⟩ := by decide

example : DummyAuthBearer.authenticate demoUserQuery "supersecret:1" =
    .ok ⟨some 1, some (.user 1)⟩ := by decide

example : DummyAuthBearer.authenticate demoUserQuery "supersecret:abc" =
    .error () := by decide

example : DummyAuthBearer.authenticate demoUserQuery "wrong:1" =
    .ok ⟨none, none⟩ := by decide

example : DummyAuthBearer.authenticate demoUserQuery "supersecret" =
    .ok ⟨none, none⟩ := by decide

example : DummyAuthBearer.authenticate demoUserQuery "a:b:c" =
    .ok ⟨none, none⟩ := by decide

end AuthScratch

section Claims

open CompanyBasic

/-- C1: for every existing employee and every partial-update (PATCH)
request, only the fields explicitly present in the request payload are
applied to the employee; every field absent from the payload
(first_name, last_name, department_id, birthdate, project_ids) retains
its prior value after the update.  This holds on every branch of the
handler: a successful update merges only present fields, a failed
`projects.set` leaves the saved scalars and old associations, and a
failed `instance.save()` leaves the whole row untouched. -/
theorem C1_update_absent_fields_unchanged (s : Store) (id : Nat)
    (d : EmployeeUpdateRequest) (e : Employee)
    (he : s.findEmployee id = some e) :
    ∃ e1, (update_employee s id d).1.findEmployee id = some e1 ∧
      (d.first_name = none → e1.first_name = e.first_name) ∧
      (d.last_name = none → e1.last_name = e.last_name) ∧
      (d.department_id = none → e1.department_id = e.department_id) ∧
      (d.birthdate = none → e1.birthdate = e.birthdate) ∧
      (d.project_ids = none → e1.project_ids = e.project_ids) := by
  obtain ⟨e1, hfind, hfail, hok⟩ := update_employee_row_spec s id d e he
  by_cases hdep : s.departmentOk (mergeEmployee e d).department_id
  · obtain ⟨h1, h2, h3, h4, h5, _, _⟩ := hok hdep
    refine ⟨e1, hfind, ?_, ?_, ?_, ?_, ?_⟩
    · intro hx
      rw [h1, hx]
      rfl
    · intro hx
      rw [h2, hx]
      rfl
    · intro hx
      rw [h3, hx]
      rfl
    · intro hx
      rw [h4, hx]
      rfl
    · intro hx
      exact h5 (Or.inl hx)
  · have hee : e1 = e := hfail hdep
    subst hee
    exact ⟨e1, hfind, fun _ => rfl, fun _ => rfl, fun _ => rfl, fun _ => rfl,
      fun _ => rfl⟩

/-- Witness for C1: updating the demo employee with only `last_name`
provided leaves every other field unchanged. -/
theorem C1_witness :
    ∃ e1, (update_employee demoStore 1 demoUpdLastName).1.findEmployee 1 = some e1 ∧
      (demoUpdLastName.first_name = none → e1.first_name = demoEmp.first_name) ∧
      (demoUpdLastName.last_name = none → e1.last_name = demoEmp.last_name) ∧
      (demoUpdLastName.department_id = none → e1.department_id = demoEmp.department_id) ∧
      (demoUpdLastName.birthdate = none → e1.birthdate = demoEmp.birthdate) ∧
      (demoUpdLastName.project_ids = none → e1.project_ids = demoEmp.project_ids) :=
  C1_update_absent_fields_unchanged demoStore 1 demoUpdLastName demoEmp (by decide)

/-- C2: for every existing employee, a partial-update request whose
`project_ids` is explicitly the empty (falsy) list leaves the project
associations unchanged rather than clearing them — on every branch, the
save included — while a provided non-empty list of existing ids replaces
the associations, provided the scalar save goes through (the merged
department reference names a row; otherwise the program raises at
`instance.save()` before `projects.set` is reached). -/
theorem C2_update_empty_pids_noop (s : Store) (id : Nat)
    (d : EmployeeUpdateRequest) (e : Employee)
    (he : s.findEmployee id = some e) :
    (d.project_ids = some [] →
      ∃ e1, (update_employee s id d).1.findEmployee id = some e1 ∧
        e1.project_ids = e.project_ids) ∧
    (∀ l, d.project_ids = some l → l ≠ [] →
      s.departmentOk (mergeEmployee e d).department_id →
      (∀ p ∈ l, p ∈ s.projects) →
      ∃ e1, (update_employee s id d).1.findEmployee id = some e1 ∧
        e1.project_ids.toFinset = l.toFinset) := by
  obtain ⟨e1, hfind, hfail, hok⟩ := update_employee_row_spec s id d e he
  constructor
  · intro hx
    by_cases hdep : s.departmentOk (mergeEmployee e d).department_id
    · exact ⟨e1, hfind, (hok hdep).2.2.2.2.1 (Or.inr hx)⟩
    · have hee : e1 = e := hfail hdep
      subst hee
      exact ⟨e1, hfind, rfl⟩
  · intro l hl hne hdep hall
    refine ⟨e1, hfind, ?_⟩
    rw [(hok hdep).2.2.2.2.2.2 l hl hne hall, dedup_toFinset]

/-- Witness for C2: patching the demo employee (associated to project 10)
with an explicit empty `project_ids` keeps the association to project 10. -/
theorem C2_witness :
    ∃ e1, (update_employee demoStore 1 demoUpdEmptyPids).1.findEmployee 1 = some e1 ∧
      e1.project_ids = demoEmp.project_ids :=
  (C2_update_empty_pids_noop demoStore 1 demoUpdEmptyPids demoEmp (by decide)).1
    (by decide)

end Claims

section ClaimsAuth

open CompanyNinjaCrud

/-- C3 counterexample: with only user 1 in the database, the bearer
token "supersecret:2" splits on ':' into exactly two parts and carries
the expected secret, yet `authenticate` returns a falsy value — the
request is treated as unauthenticated — even though the anonymous
placeholder was attached to `request.user`; and the token
"supersecret:abc", equally well-shaped, makes the user query raise (the
ORM's `ValueError` on a non-numeric id), so no user is resolved and
nothing is attached at all.  Both contradict the claim that every
two-part token with the right secret authenticates successfully. -/
theorem C3_counterexample_unknown_user :
    (splitColon "supersecret:2".data).length = 2 ∧
    splitColon "supersecret:2".data = ["supersecret".data, "2".data] ∧
    demoUserQuery ⟨"2".data⟩ = .ok none ∧
    DummyAuthBearer.authenticate demoUserQuery "supersecret:2" =
      .ok ⟨none, some RequestUser.anonymous⟩ ∧
    splitColon "supersecret:abc".data = ["supersecret".data, "abc".data] ∧
    DummyAuthBearer.authenticate demoUserQuery "supersecret:abc" = .error () := by
  decide

/-- C3 (amended): for every bearer token, if the token does not split on
':' into exactly two parts, or the secret part differs from
"supersecret", authentication fails with nothing attached to the
request.  Otherwise the user_id part is passed to the user query.  If
the query raises — as the ORM does for a non-numeric id string — the
exception propagates out of `authenticate` and no authentication
decision is made.  If the query returns a user, authentication succeeds
with that user attached to the request.  If the query returns no user,
the anonymous placeholder is attached to `request.user` but
`authenticate` returns a falsy value, so the request is still treated as
unauthenticated. -/
theorem C3_amended_authenticate_cases (query : String → Except Unit (Option Nat))
    (token : String) :
    ((splitColon token.data).length ≠ 2 →
      DummyAuthBearer.authenticate query token = .ok ⟨none, none⟩) ∧
    (∀ tv uid, splitColon token.data = [tv, uid] →
      (tv ≠ "supersecret".data →
        DummyAuthBearer.authenticate query token = .ok ⟨none, none⟩) ∧
      (tv = "supersecret".data →
        (∀ err, query ⟨uid⟩ = .error err →
          DummyAuthBearer.authenticate query token = .error err) ∧
        (∀ u, query ⟨uid⟩ = .ok (some u) →
          DummyAuthBearer.authenticate query token =
            .ok ⟨some u, some (RequestUser.user u)⟩) ∧
        (query ⟨uid⟩ = .ok none →
          DummyAuthBearer.authenticate query token =
            .ok ⟨none, some RequestUser.anonymous⟩))) := by
  constructor
  · intro hlen
    rcases hsplit : splitColon token.data with _ | ⟨a, _ | ⟨b, _ | ⟨c, tl⟩⟩⟩
    · simp [DummyAuthBearer.authenticate, hsplit]
    · simp [DummyAuthBearer.authenticate, hsplit]
    · rw [hsplit] at hlen
      simp at hlen
    · simp [DummyAuthBearer.authenticate, hsplit]
  · intro tv uid hsplit
    constructor
    · intro hne
      simp [DummyAuthBearer.authenticate, hsplit, hne]
    · intro heq
      subst heq
      refine ⟨?_, ?_, ?_⟩
      · intro err hq
        simp [DummyAuthBearer.authenticate, hsplit, hq]
      · intro u hq
        simp [DummyAuthBearer.authenticate, hsplit, hq]
      · intro hq
        simp [DummyAuthBearer.authenticate, hsplit, hq]

/-- Witness for C3 (amended): the token "supersecret:1" authenticates as
user 1 when that user exists. -/
theorem C3_witness :
    DummyAuthBearer.authenticate demoUserQuery "supersecret:1" =
      .ok ⟨some 1, some (RequestUser.user 1)⟩ :=
  ((((C3_amended_authenticate_cases demoUserQuery "supersecret:1").2
    "supersecret".data "1".data (by decide)).2 rfl).2.1) 1 (by decide)

end ClaimsAuth

section ClaimsMore

open CompanyBasic

/-- C4: for every employee id not present in the store, read-by-id,
update-by-id and delete-by-id each fail with NotFound (HTTP 404), and the
missing-id update and delete leave the store exactly as it was, so no
entity is removed. -/
theorem C4_missing_id_not_found (s : Store) (id : Nat)
    (d : EmployeeUpdateRequest) (he : s.findEmployee id = none) :
    get_employee s id = .error .notFound ∧
    update_employee s id d = (s, .error .notFound) ∧
    delete_employee s id = (s, .error .notFound) :=
  ⟨get_employee_notFound s id he, update_employee_notFound s id d he,
    delete_employee_notFound s id he⟩

/-- Witness for C4: id 5 is absent from the demo store, and all three
by-id operations 404 without touching it. -/
theorem C4_witness :
    get_employee demoStore 5 = .error .notFound ∧
    update_employee demoStore 5 demoUpdLastName = (demoStore, .error .notFound) ∧
    delete_employee demoStore 5 = (demoStore, .error .notFound) :=
  C4_missing_id_not_found demoStore 5 demoUpdLastName (by decide)

/-- C5 counterexample: patching the demo employee with a new last name
together with a non-existent project id 99 fails (integrity error from
the association write), yet the stored state is NOT the state from
before the operation: the new last name was already persisted by the
first write.  This refutes the claim that every operation is one atomic
persistence call whose failure leaves the stored state unchanged. -/
theorem C5_counterexample_nonatomic_update :
    (update_employee demoStore 1 demoUpdBadProject).2 = .error .integrityError ∧
    (update_employee demoStore 1 demoUpdBadProject).1 ≠ demoStore ∧
    ((update_employee demoStore 1 demoUpdBadProject).1.findEmployee 1).map
      Employee.last_name = some "X" := by decide

/-- C5 (amended): no operation retries, and read and delete are single
persistence calls, but create and update each perform two separate
persistence calls with no transaction around them: an entity write
(`objects.create` / `instance.save`) followed by an association write
(`projects.set`).  When the entity write itself fails — a department
reference naming no row — nothing is persisted.  But when the entity
write succeeds and the association write fails, the entity write remains
applied: the merged scalar fields (for update) or the new row with no
associations (for create) are left in the store, while the association
list itself is unchanged. -/
theorem C5_amended_two_phase_writes (s : Store) :
    (∀ id d e p ps q, s.findEmployee id = some e → d.project_ids = some (p :: ps) →
      s.departmentOk (mergeEmployee e d).department_id →
      q ∈ p :: ps → q ∉ s.projects →
      (update_employee s id d).2 = .error .integrityError ∧
      ∃ e1, (update_employee s id d).1.findEmployee id = some e1 ∧
        e1.first_name = d.first_name.getD e.first_name ∧
        e1.last_name = d.last_name.getD e.last_name ∧
        e1.project_ids = e.project_ids) ∧
    (∀ data q, q ∈ EmployeeRequest.project_ids data →
      s.departmentOk (EmployeeRequest.department_id data) → q ∉ s.projects →
      (create_employee s data).2 = .error .integrityError ∧
      (s.fresh → ∃ e2, (create_employee s data).1.findEmployee s.nextId = some e2 ∧
        e2.first_name = data.first_name ∧ e2.project_ids = [])) ∧
    (∀ id d e, s.findEmployee id = some e →
      ¬ s.departmentOk (mergeEmployee e d).department_id →
      update_employee s id d = (s, .error .integrityError)) ∧
    (∀ data, ¬ s.departmentOk (EmployeeRequest.department_id data) →
      create_employee s data = (s, .error .integrityError)) := by
  refine ⟨?_, ?_, ?_, ?_⟩
  · intro id d e p ps q he hd hdep hq hnq
    have hid : e.id = id := findEmployee_id s id e he
    have hmid : (mergeEmployee e d).id = id := by rw [mergeEmployee_id, hid]
    rcases hs0 : s.saveEmployee (mergeEmployee e d) with _ | s1
    · rw [saveEmployee_eq_some s (mergeEmployee e d) hdep] at hs0
      cases hs0
    · have hsave : s1.findEmployee id = some (mergeEmployee e d) :=
        findEmployee_save s id e (mergeEmployee e d) he hmid s1 hs0
      have hproj : s1.projects = s.projects := saveEmployee_projects s _ s1 hs0
      have hnq1 : q ∉ s1.projects := by
        rw [hproj]
        exact hnq
      have hset : s1.projectsSet (mergeEmployee e d).id (p :: ps) = none :=
        projectsSet_eq_none s1 _ _ q hq hnq1
      rw [update_employee_found_set_fail s id d e p ps s1 he hd hs0 hset]
      exact ⟨rfl, mergeEmployee e d, hsave, rfl, rfl, rfl⟩
  · intro data q hq hdep hnq
    rw [create_employee_fail s data hdep q hq hnq]
    refine ⟨rfl, ?_⟩
    intro hfresh
    refine ⟨newEmployee s data, ?_, rfl, rfl⟩
    rw [findEmployee_append_fresh s hfresh [newEmployee s data] _ rfl]
    simp [findRow, newEmployee]
  · intro id d e he hdep
    exact update_employee_save_fail s id d e he hdep
  · intro data hdep
    exact create_employee_dept_fail s data hdep

/-- Witness for C5 (amended): the concrete two-phase failure on the demo
store. -/
theorem C5_witness :
    (update_employee demoStore 1 demoUpdBadProject).2 = .error .integrityError ∧
    ∃ e1, (update_employee demoStore 1 demoUpdBadProject).1.findEmployee 1 = some e1 ∧
      e1.first_name = demoUpdBadProject.first_name.getD demoEmp.first_name ∧
      e1.last_name = demoUpdBadProject.last_name.getD demoEmp.last_name ∧
      e1.project_ids = demoEmp.project_ids :=
  (C5_amended_two_phase_writes demoStore).1 1 demoUpdBadProject demoEmp 99 [] 99
    (by decide) (by decide) (by decide) (by decide) (by decide)

/-- C6: when the department reference names a row (so the insert itself
does not raise) and the requested project ids exist, create first
inserts the entity from the scalar fields and then sets its project
associations to exactly the provided `project_ids` list (as a set —
Django deduplicates), replacing rather than merging; an explicitly
provided empty list yields an employee with no associations. -/
theorem C6_create_sets_exact_associations (s : Store) (data : EmployeeRequest)
    (hfresh : s.fresh) (hdep : s.departmentOk data.department_id)
    (hex : ∀ p ∈ data.project_ids, p ∈ s.projects) :
    ∃ e1, (create_employee s data).1.findEmployee s.nextId = some e1 ∧
      (create_employee s data).2 = .ok (.ofEmployee e1) ∧
      e1.first_name = data.first_name ∧
      e1.last_name = data.last_name ∧
      e1.department_id = data.department_id ∧
      e1.birthdate = data.birthdate ∧
      e1.project_ids = data.project_ids.dedup ∧
      e1.project_ids.toFinset = data.project_ids.toFinset ∧
      (data.project_ids = [] → e1.project_ids = []) := by
  obtain ⟨h2, hfind⟩ := create_employee_ok s data hdep hex
  refine ⟨{ newEmployee s data with project_ids := data.project_ids.dedup },
    hfind hfresh, h2, rfl, rfl, rfl, rfl, rfl, dedup_toFinset _, ?_⟩
  intro h
  simp [h]

/-- Witness for C6: creating "A B" with projects [11, 10] in the demo
store stores exactly those associations. -/
theorem C6_witness :
    ∃ e1, (create_employee demoStore demoCreate).1.findEmployee demoStore.nextId = some e1 ∧
      (create_employee demoStore demoCreate).2 = .ok (.ofEmployee e1) ∧
      e1.first_name = demoCreate.first_name ∧
      e1.last_name = demoCreate.last_name ∧
      e1.department_id = demoCreate.department_id ∧
      e1.birthdate = demoCreate.birthdate ∧
      e1.project_ids = demoCreate.project_ids.dedup ∧
      e1.project_ids.toFinset = demoCreate.project_ids.toFinset ∧
      (demoCreate.project_ids = [] → e1.project_ids = []) :=
  C6_create_sets_exact_associations demoStore demoCreate (by decide) (by decide)
    (by decide)

/-- C7: for distinct existing project ids P1 and P2, creating an
employee with project_ids [P1, P2] — under a department reference that
names a row, so the insert does not raise — and reading it back by id
returns a response whose project_ids, viewed as a set, is exactly the
two-element set of P1 and P2, regardless of order. -/
theorem C7_create_then_read_projects_as_set (s : Store) (p1 p2 : Nat)
    (_hne : p1 ≠ p2) (h1 : p1 ∈ s.projects) (h2 : p2 ∈ s.projects)
    (hfresh : s.fresh) (fn ln : String) (dep bd : Option Int)
    (hdep : s.departmentOk dep) :
    ∃ r, (create_employee s ⟨fn, ln, dep, [p1, p2], bd⟩).2 = .ok r ∧
      ∃ resp, get_employee (create_employee s ⟨fn, ln, dep, [p1, p2], bd⟩).1 r.id =
          .ok resp ∧
        resp.project_ids.toFinset = {p1, p2} := by
  have hex : ∀ p ∈ [p1, p2], p ∈ s.projects := by
    intro p hp
    simp only [List.mem_cons, List.mem_singleton, List.not_mem_nil, or_false] at hp
    rcases hp with rfl | rfl
    · exact h1
    · exact h2
  obtain ⟨hresp, hfind⟩ := create_employee_ok s ⟨fn, ln, dep, [p1, p2], bd⟩ hdep hex
  refine ⟨_, hresp, ?_⟩
  have hget := get_employee_found _ s.nextId _ (hfind hfresh)
  refine ⟨_, hget, ?_⟩
  show ([p1, p2].dedup).toFinset = {p1, p2}
  rw [dedup_toFinset]
  simp

/-- Witness for C7: creating with projects [10, 11] in the demo store and
reading back yields the two-element set of 10 and 11. -/
theorem C7_witness :
    ∃ r, (create_employee demoStore ⟨"A", "B", none, [10, 11], none⟩).2 = .ok r ∧
      ∃ resp, get_employee (create_employee demoStore ⟨"A", "B", none, [10, 11], none⟩).1
          r.id = .ok resp ∧
        resp.project_ids.toFinset = {10, 11} :=
  C7_create_then_read_projects_as_set demoStore 10 11 (by decide) (by decide)
    (by decide) (by decide) "A" "B" none none (by decide)

end ClaimsMore

section ClaimsValidation

open CompanyBasic

/-- C8: for every string field (first_name, last_name) in a create or
update request payload, the value stored is the input string with
leading and trailing whitespace removed (`str_strip_whitespace`), in
both the basic and the ninja_crud variants.  For the basic variant's
stored rows this is shown under the conditions that make the entity
write succeed at all: the payload's department reference (and, for
update, the stored row's) names a row. -/
theorem C8_string_fields_trimmed (s : Store) (hfresh : s.fresh)
    (hrows : s.departmentsOk) (p : RawPayload) (fn ln : String)
    (hfn : p.first_name = some fn) (hln : p.last_name = some ln)
    (hdep : s.departmentOk p.department_id) :
    (∃ d, validateEmployeeRequest p = .ok d ∧
      d.first_name = fn.trim ∧ d.last_name = ln.trim ∧
      ∃ e1, (create_employee s d).1.findEmployee s.nextId = some e1 ∧
        e1.first_name = fn.trim ∧ e1.last_name = ln.trim) ∧
    (∀ id e, s.findEmployee id = some e →
      ∃ e1, (update_employee s id (validateEmployeeUpdateRequest p)).1.findEmployee id =
          some e1 ∧
        e1.first_name = fn.trim ∧ e1.last_name = ln.trim) ∧
    (∀ d2, CompanyNinjaCrud.validateEmployeeRequest p = .ok d2 →
      d2.first_name = fn.trim ∧ d2.last_name = ln.trim) ∧
    (CompanyNinjaCrud.validateEmployeeUpdateRequest p).first_name = some fn.trim ∧
    (CompanyNinjaCrud.validateEmployeeUpdateRequest p).last_name = some ln.trim := by
  refine ⟨?_, ?_, ?_, ?_, ?_⟩
  · refine ⟨{ first_name := fn.trim, last_name := ln.trim, department_id := p.department_id, project_ids := p.project_ids.getD [], birthdate := p.birthdate }, ?_, rfl, rfl, ?_⟩
    · simp [validateEmployeeRequest, hfn, hln]
    · obtain ⟨e1, hfind, hf, hl, _, _⟩ := create_employee_row s
        { first_name := fn.trim, last_name := ln.trim, department_id := p.department_id, project_ids := p.project_ids.getD [], birthdate := p.birthdate }
        hdep hfresh
      exact ⟨e1, hfind, hf, hl⟩
  · intro id e he2
    obtain ⟨e1, hfind, hfail, hok⟩ :=
      update_employee_row_spec s id (validateEmployeeUpdateRequest p) e he2
    have hdm : s.departmentOk
        (mergeEmployee e (validateEmployeeUpdateRequest p)).department_id :=
      mergeEmployee_departmentOk s e (validateEmployeeUpdateRequest p)
        (hrows e (findEmployee_mem s id e he2)) hdep
    obtain ⟨h1, h2, _⟩ := hok hdm
    refine ⟨e1, hfind, ?_, ?_⟩
    · rw [h1]
      simp [validateEmployeeUpdateRequest, hfn]
    · rw [h2]
      simp [validateEmployeeUpdateRequest, hln]
  · intro d2 hd2
    rcases hpr : p.project_ids with _ | l
    · simp [CompanyNinjaCrud.validateEmployeeRequest, hfn, hln, hpr] at hd2
    · simp only [CompanyNinjaCrud.validateEmployeeRequest, hfn, hln, hpr,
        Except.ok.injEq] at hd2
      rw [← hd2]
      exact ⟨rfl, rfl⟩
  · simp [CompanyNinjaCrud.validateEmployeeUpdateRequest, hfn]
  · simp [CompanyNinjaCrud.validateEmployeeUpdateRequest, hln]

/-- Witness for C8: the padded payload "  Ann " / " Lee " is stored
trimmed. -/
theorem C8_witness :
    (∃ d, validateEmployeeRequest demoPayload = .ok d ∧
      d.first_name = "  Ann ".trim ∧ d.last_name = " Lee ".trim ∧
      ∃ e1, (create_employee demoStore d).1.findEmployee demoStore.nextId = some e1 ∧
        e1.first_name = "  Ann ".trim ∧ e1.last_name = " Lee ".trim) ∧
    (∀ id e, demoStore.findEmployee id = some e →
      ∃ e1, (update_employee demoStore id
          (validateEmployeeUpdateRequest demoPayload)).1.findEmployee id = some e1 ∧
        e1.first_name = "  Ann ".trim ∧ e1.last_name = " Lee ".trim) ∧
    (∀ d2, CompanyNinjaCrud.validateEmployeeRequest demoPayload = .ok d2 →
      d2.first_name = "  Ann ".trim ∧ d2.last_name = " Lee ".trim) ∧
    (CompanyNinjaCrud.validateEmployeeUpdateRequest demoPayload).first_name =
      some "  Ann ".trim ∧
    (CompanyNinjaCrud.validateEmployeeUpdateRequest demoPayload).last_name =
      some " Lee ".trim :=
  C8_string_fields_trimmed demoStore (by decide) (by decide) demoPayload
    "  Ann " " Lee " rfl rfl (by decide)

/-- C9: in the ninja_crud variant, the wire key `project_ids` of create
and update payloads populates the internal relation field `projects`
(`Field(..., alias="project_ids")`), keeping the external contract the
same as the basic variant's. -/
theorem C9_wire_alias_populates_projects (p : RawPayload) (l : List Nat)
    (hl : p.project_ids = some l) :
    (∀ d, CompanyNinjaCrud.validateEmployeeRequest p = .ok d →
      d.projects = l) ∧
    (CompanyNinjaCrud.validateEmployeeUpdateRequest p).projects = some l := by
  constructor
  · intro d hd
    rcases hfn : p.first_name with _ | fn
    · simp [CompanyNinjaCrud.validateEmployeeRequest, hfn] at hd
    · rcases hln : p.last_name with _ | ln
      · simp [CompanyNinjaCrud.validateEmployeeRequest, hfn, hln] at hd
      · simp only [CompanyNinjaCrud.validateEmployeeRequest, hfn, hln, hl,
          Except.ok.injEq] at hd
        rw [← hd]
  · simp [CompanyNinjaCrud.validateEmployeeUpdateRequest, hl]

/-- Witness for C9: the demo payload's `project_ids` value [11] lands in
the internal `projects` field of both ninja_crud schemas. -/
theorem C9_witness :
    (∀ d, CompanyNinjaCrud.validateEmployeeRequest demoPayload = .ok d →
      d.projects = [11]) ∧
    (CompanyNinjaCrud.validateEmployeeUpdateRequest demoPayload).projects = some [11] :=
  C9_wire_alias_populates_projects demoPayload [11] rfl

/-- C10: a create payload that omits `project_ids` is valid in the basic
variant — the field defaults to the empty list, and (when its department
reference names a row, so the insert does not raise) the created
employee has no project associations — whereas the ninja_crud variant
rejects the same payload with a validation error, because its aliased
`projects` field is required. -/
theorem C10_omitted_project_ids_divergence (s : Store) (hfresh : s.fresh)
    (p : RawPayload) (fn ln : String)
    (hfn : p.first_name = some fn) (hln : p.last_name = some ln)
    (hpr : p.project_ids = none) (hdep : s.departmentOk p.department_id) :
    (∃ d, validateEmployeeRequest p = .ok d ∧ d.project_ids = [] ∧
      ∃ e1, (create_employee s d).1.findEmployee s.nextId = some e1 ∧
        e1.project_ids = [] ∧
        (create_employee s d).2 = .ok (.ofEmployee e1)) ∧
    CompanyNinjaCrud.validateEmployeeRequest p =
      .error (.missingField "project_ids") := by
  constructor
  · refine ⟨{ first_name := fn.trim, last_name := ln.trim, department_id := p.department_id, project_ids := [], birthdate := p.birthdate }, ?_, rfl, ?_⟩
    · simp [validateEmployeeRequest, hfn, hln, hpr]
    · obtain ⟨h2, hfind⟩ := create_employee_ok s
        { first_name := fn.trim, last_name := ln.trim, department_id := p.department_id, project_ids := [], birthdate := p.birthdate }
        hdep (by simp)
      exact ⟨_, hfind hfresh, rfl, h2⟩
  · simp [CompanyNinjaCrud.validateEmployeeRequest, hfn, hln, hpr]

/-- Witness for C10: the payload of "Ann Lee" with no `project_ids` key
creates fine in the basic variant and is rejected by ninja_crud. -/
theorem C10_witness :
    (∃ d, validateEmployeeRequest demoPayloadNoPids = .ok d ∧ d.project_ids = [] ∧
      ∃ e1, (create_employee demoStore d).1.findEmployee demoStore.nextId = some e1 ∧
        e1.project_ids = [] ∧
        (create_employee demoStore d).2 = .ok (.ofEmployee e1)) ∧
    CompanyNinjaCrud.validateEmployeeRequest demoPayloadNoPids =
      .error (.missingField "project_ids") :=
  C10_omitted_project_ids_divergence demoStore (by decide) demoPayloadNoPids
    "Ann" "Lee" rfl rfl rfl (by decide)

end ClaimsValidation
